import Mathlib

/-!
Verification development for the StudyTree lecture-processing backend
(`src/backend/server.js`).  The JavaScript source is shallowly embedded:
pure computations become Lean functions, the orchestrator's store updates
become an explicit event trace, external subprocesses and AI calls become
environment parameters returning `Except`, and JavaScript exceptions become
`Option`/`Except` failure values.
-/

namespace StudyTree

/-! ## JSON values

`JSON.parse` output is modelled by `Json`.  Numbers are restricted to
integers (the quiz payloads the server handles use integer `correctAnswer`
indices); fractional literals make the modelled parser fail.
-/

inductive Json where
  | null : Json
  | bool (b : Bool) : Json
  | num (n : Int) : Json
  | str (s : String) : Json
  | arr (xs : List Json) : Json
  | obj (fields : List (String × Json)) : Json
  deriving Repr

mutual

/-- Structural equality test on JSON values (models `===` on the values the
quiz code compares, which in practice are primitive option strings). -/
def Json.beq : Json → Json → Bool
  | .num a, .num b => a == b
  | .str a, .str b => a == b
  | .bool a, .bool b => a == b
  | .null, .null => true
  | .arr xs, .arr ys => Json.beqList xs ys
  | .obj fs, .obj gs => Json.beqFields fs gs
  | _, _ => false

def Json.beqList : List Json → List Json → Bool
  | [], ys => ys.isEmpty
  | x :: xs, ys =>
      match ys with
      | [] => false
      | y :: tl => Json.beq x y && Json.beqList xs tl

def Json.beqFields : List (String × Json) → List (String × Json) → Bool
  | [], gs => gs.isEmpty
  | f :: fs, gs =>
      match gs with
      | [] => false
      | g :: tl => f.1 == g.1 && Json.beq f.2 g.2 && Json.beqFields fs tl

end

/-- JavaScript truthiness of a JSON value. -/
def jsTruthy : Json → Bool
  | .null => false
  | .bool b => b
  | .num n => n != 0
  | .str s => s != ""
  | .arr _ => true
  | .obj _ => true

/-- Property read `v.k` on a JSON value.  `none` models a thrown
`TypeError` (member access on `null`); `some none` models `undefined`;
`some (some w)` is a found value.  Duplicate object keys resolve to the
last occurrence, as `JSON.parse` would have kept only the last. -/
def jsGet (v : Json) (k : String) : Option (Option Json) :=
  match v with
  | .null => none
  | .obj fields =>
      some (fields.foldl (fun acc kv => if kv.1 = k then some kv.2 else acc) none)
  | _ => some none

/-! ## JSON parser (model of `JSON.parse`)

A fuel-indexed recursive-descent parser over `List Char`.  The fuel is set
large enough at the top level; theorems only ever assume a successful parse
or evaluate the parser on concrete input, so fuel adequacy is never needed
abstractly.
-/

def isJsonWs (c : Char) : Bool :=
  c.isWhitespace

/-- Drop leading JSON whitespace. -/
def dropWs : List Char → List Char
  | [] => []
  | c :: tl => bif isJsonWs c then dropWs tl else c :: tl

/-- Translate a JSON string escape character to the character it denotes. -/
def unescapeChar (e : Char) : Option Char :=
  if e = 'n' then some '\n'
  else if e = 't' then some '\t'
  else if e = 'r' then some '\r'
  else if e = '"' then some '"'
  else if e = '\\' then some '\\'
  else if e = '/' then some '/'
  else if e = 'b' then some (Char.ofNat 8)
  else if e = 'f' then some (Char.ofNat 12)
  else none

/-- Consume an expected literal tail (the keyword characters after the
already-seen first letter of `null`, `true` or `false`). -/
def stripLit : List Char → List Char → Option (List Char)
  | [], s => some s
  | _ :: _, [] => none
  | c :: cs, x :: xs => if x = c then stripLit cs xs else none

/-- Parse the body of a JSON string after the opening quote, accumulating
characters until the closing quote. -/
def strBody (acc : List Char) : List Char → Option (String × List Char)
  | [] => none
  | c :: tl =>
      if c = '\\' then
        match tl with
        | [] => none
        | e :: tl2 => (unescapeChar e).bind fun d => strBody (d :: acc) tl2
      else if c = '"' then some (String.mk acc.reverse, tl)
      else strBody (c :: acc) tl

def digitVal (c : Char) : Nat := c.toNat - '0'.toNat

/-- Consume a run of decimal digits, returning their value and count. -/
def digitsRun : Nat → Nat → List Char → (Nat × Nat × List Char)
  | acc, cnt, [] => (acc, cnt, [])
  | acc, cnt, c :: tl =>
      bif c.isDigit then digitsRun (acc * 10 + digitVal c) (cnt + 1) tl
      else (acc, cnt, c :: tl)

/-- After an integer's digits, a fractional part or exponent is outside the
modelled fragment and fails. -/
def numGuard (v : Int) : List Char → Option (Int × List Char)
  | '.' :: _ => none
  | 'e' :: _ => none
  | 'E' :: _ => none
  | tl => some (v, tl)

/-- Parse a JSON number restricted to optionally-signed integers. -/
def numTok : List Char → Option (Int × List Char)
  | '-' :: tl =>
      match digitsRun 0 0 tl with
      | (_, 0, _) => none
      | (v, _ + 1, tl2) => numGuard (-(v : Int)) tl2
  | s =>
      match digitsRun 0 0 s with
      | (_, 0, _) => none
      | (v, _ + 1, tl2) => numGuard (v : Int) tl2

mutual

/-- Parse one JSON value (after dropping leading whitespace), on fuel. -/
def jvalue : Nat → List Char → Option (Json × List Char)
  | 0, _ => none
  | fl + 1, s =>
      match dropWs s with
      | [] => none
      | c :: tl =>
          if c = '"' then (strBody [] tl).map fun p => (Json.str p.1, p.2)
          else if c = '[' then
            match dropWs tl with
            | ']' :: tl2 => some (Json.arr [], tl2)
            | tl2 => (jitems fl tl2).map fun p => (Json.arr p.1, p.2)
          else if c = '{' then
            match dropWs tl with
            | '}' :: tl2 => some (Json.obj [], tl2)
            | tl2 => (jfields fl tl2).map fun p => (Json.obj p.1, p.2)
          else if c = 'n' then
            (stripLit "ull".toList tl).map fun r => (Json.null, r)
          else if c = 't' then
            (stripLit "rue".toList tl).map fun r => (Json.bool true, r)
          else if c = 'f' then
            (stripLit "alse".toList tl).map fun r => (Json.bool false, r)
          else (numTok (c :: tl)).map fun p => (Json.num p.1, p.2)

/-- Parse the elements of a non-empty array, up to and including the
closing bracket. -/
def jitems : Nat → List Char → Option (List Json × List Char)
  | 0, _ => none
  | fl + 1, s =>
      (jvalue fl s).bind fun p =>
        match dropWs p.2 with
        | ']' :: tl => some ([p.1], tl)
        | ',' :: tl => (jitems fl tl).map fun q => (p.1 :: q.1, q.2)
        | _ => none

/-- Parse the members of a non-empty object, up to and including the
closing brace. -/
def jfields : Nat → List Char → Option (List (String × Json) × List Char)
  | 0, _ => none
  | fl + 1, s =>
      match dropWs s with
      | '"' :: tl =>
          (strBody [] tl).bind fun kp =>
            match dropWs kp.2 with
            | ':' :: tl2 =>
                (jvalue fl tl2).bind fun vp =>
                  match dropWs vp.2 with
                  | '}' :: tl3 => some ([(kp.1, vp.1)], tl3)
                  | ',' :: tl3 =>
                      (jfields fl tl3).map fun q => ((kp.1, vp.1) :: q.1, q.2)
                  | _ => none
            | _ => none
      | _ => none

end

/-- Model of `JSON.parse`: parse one value, allow trailing whitespace,
reject trailing junk. -/
def jsonParse (s : List Char) : Option Json :=
  match jvalue (2 * s.length + 2) s with
  | some (v, tl) => bif (dropWs tl).isEmpty then some v else none
  | none => none

/-! ## String index helpers (models of `indexOf`, `lastIndexOf`, `substring`) -/

/-- Index of the first occurrence of `c`, as `String.prototype.indexOf`
(with `none` for `-1`). -/
def firstIdxOf (c : Char) : List Char → Option Nat
  | [] => none
  | x :: xs => if x = c then some 0 else (firstIdxOf c xs).map (· + 1)

/-- Index of the last occurrence of `c`, as `String.prototype.lastIndexOf`
(with `none` for `-1`). -/
def lastIdxOf (c : Char) (l : List Char) : Option Nat :=
  (firstIdxOf c l.reverse).map (fun i => l.length - 1 - i)

/-- `String.prototype.substring`: clamps both indices to the string length
and swaps them when the start exceeds the end. -/
def jsSubstring (l : List Char) (a b : Nat) : List Char :=
  let a2 := min a l.length
  let b2 := min b l.length
  (l.take (max a2 b2)).drop (min a2 b2)

/-- The slice the quiz code feeds to `JSON.parse`: from the first `[` to
the last `]` inclusive.  `none` models the thrown error
"AI response did not contain a JSON array." when either bracket is
missing. -/
def extractJsonSlice (s : List Char) : Option (List Char) :=
  match firstIdxOf '[' s, lastIdxOf ']' s with
  | some i, some j => some (jsSubstring s i (j + 1))
  | _, _ => none

/-- Bracket extraction followed by `JSON.parse` of the slice. -/
def extractAndParse (s : List Char) : Option Json :=
  (extractJsonSlice s).bind jsonParse

/-! ## `Array.prototype.sort` with the random comparator

`quiz.options.sort(() => Math.random() - 0.5)` calls the comparator with a
fresh random at every comparison.  The engine's sort is modelled as an
insertion sort whose `k`-th comparison overall is decided by `cmp k`
(`true` = the comparator returned a negative value, keeping the inserted
element in front).  Whatever the booleans, the result is a permutation of
the input — the only property of the idiom the code relies on.
-/

def insertR (cmp : Nat → Bool) (a : α) : List α → Nat → List α × Nat
  | [], n => ([a], n)
  | b :: bs, n =>
      if cmp n then (a :: b :: bs, n + 1)
      else
        let r := insertR cmp a bs (n + 1)
        (b :: r.1, r.2)

def sortRAux (cmp : Nat → Bool) : List α → Nat → List α × Nat
  | [], n => ([], n)
  | a :: as, n =>
      let r := sortRAux cmp as n
      insertR cmp a r.1 r.2

/-- The shuffled list, threading the comparison counter. -/
def sortR (cmp : Nat → Bool) (l : List α) (n : Nat) : List α × Nat :=
  sortRAux cmp l n

/-! ## Quiz item shuffle (the `forEach` body) -/

/-- JavaScript array indexing `xs[idx]` with a JSON value as index:
integer numbers index directly; canonical numeric strings are coerced;
anything else reads an absent property (`undefined`, here `none`). -/
def jsIndexAccess (xs : List Json) (idx : Json) : Option Json :=
  match idx with
  | .num n => if 0 ≤ n then xs[n.toNat]? else none
  | .str s =>
      match s.toNat? with
      | some n => if Nat.repr n = s then xs[n]? else none
      | none => none
  | _ => none

/-- Index of the first element satisfying `p`. -/
def findIdxP (p : α → Bool) : List α → Option Nat
  | [] => none
  | x :: xs => if p x then some 0 else (findIdxP p xs).map (· + 1)

/-- `Array.prototype.indexOf` searching for a possibly-`undefined` value;
`-1` when absent (an `undefined` target never matches a parsed JSON
element). -/
def jsIndexOf (xs : List Json) (t : Option Json) : Int :=
  match t with
  | none => -1
  | some v =>
      match findIdxP (fun x => Json.beq x v) xs with
      | some i => (i : Int)
      | none => -1

/-- Assign a (present) object field. -/
def setField (fields : List (String × Json)) (k : String) (v : Json) :
    List (String × Json) :=
  fields.map (fun kv => if kv.1 = k then (kv.1, v) else kv)

/-- One iteration of the shuffle loop:

    if (quiz.options && quiz.correctAnswer !== undefined) {
        const correctAnswerText = quiz.options[quiz.correctAnswer];
        quiz.options.sort(() => Math.random() - 0.5);
        quiz.correctAnswer = quiz.options.indexOf(correctAnswerText);
    }

`none` models a thrown `TypeError` (member access on a `null` item, or
`.sort` on a truthy non-array `options`); otherwise the possibly-updated
item and the advanced comparison counter are returned. -/
def shuffleItem (cmp : Nat → Bool) (q : Json) (n : Nat) : Option (Json × Nat) :=
  match jsGet q "options" with
  | none => none
  | some optVal =>
      match jsGet q "correctAnswer" with
      | none => none
      | some caVal =>
          match optVal with
          | none => some (q, n)
          | some opts =>
              if jsTruthy opts = false then some (q, n)
              else
                match caVal with
                | none => some (q, n)
                | some ca =>
                    match opts with
                    | .arr xs =>
                        let text := jsIndexAccess xs ca
                        let sorted := sortR cmp xs n
                        let newIdx := jsIndexOf sorted.1 text
                        match q with
                        | .obj fields =>
                            some (.obj (setField (setField fields "options"
                                (.arr sorted.1)) "correctAnswer" (.num newIdx)),
                              sorted.2)
                        | _ => none
                    | _ => none

/-- `quizzes.forEach(...)` over the parsed array, threading the comparison
counter; `none` when any iteration throws. -/
def shuffleItems (cmp : Nat → Bool) : List Json → Nat → Option (List Json × Nat)
  | [], n => some ([], n)
  | q :: qs, n =>
      match shuffleItem cmp q n with
      | none => none
      | some (q2, n2) =>
          match shuffleItems cmp qs n2 with
          | none => none
          | some (qs2, n3) => some (q2 :: qs2, n3)

/-- One attempt body after receiving a response: bracket-extract, parse,
shuffle.  `none` models any exception reaching the attempt's `catch`
(missing bracket, parse error, or shuffle `TypeError`; a parse result that
is not an array throws at `.forEach`). -/
def parseAndShuffle (cmp : Nat → Bool) (resp : List Char) : Option (List Json) :=
  match extractAndParse resp with
  | some (.arr items) => (shuffleItems cmp items 0).map (·.1)
  | some _ => none
  | none => none

/-! ## Quiz generation (`generateQuizzes`) -/

def initialPrompt (transcript : String) : String :=
  "Based on this transcript, create 5 multiple choice questions with 4 options each. Return ONLY a valid JSON array in this exact format, with no other text or explanation: [\x7b\"question\": \"...\", \"options\": [\"A\", \"B\", \"C\", \"D\"], \"correctAnswer\": 1, \"explanation\": \"...\"\x7d]\n\nTranscript: " ++ transcript

def correctivePromptPrefix : String :=
  "The following text is not valid JSON. Please fix any syntax errors (like unescaped quotes or trailing commas) and return ONLY the corrected, valid JSON array, with no other text:\n\n"

def correctivePrompt (prev : String) : String :=
  correctivePromptPrefix ++ prev

def quizFailureMsgPrefix : String :=
  "The AI failed to generate a valid quiz after multiple attempts. Last response: "

def quizFailureMsg (lastResponse : String) : String :=
  quizFailureMsgPrefix ++ lastResponse

/-- The two-attempt loop of `generateQuizzes`.  `ai` maps each issued
prompt to the model's raw response; `cmp i` is the random-comparator
stream of attempt `i`.  Returns the outcome together with the list of
prompts actually sent (its length is the number of AI calls). -/
def generateQuizzes (ai : String → String) (cmp : Nat → Nat → Bool)
    (transcript : String) : Except String (List Json) × List String :=
  let p1 := initialPrompt transcript
  let r1 := ai p1
  match parseAndShuffle (cmp 0) r1.toList with
  | some qs => (.ok qs, [p1])
  | none =>
      let p2 := correctivePrompt r1
      let r2 := ai p2
      match parseAndShuffle (cmp 1) r2.toList with
      | some qs => (.ok qs, [p1, p2])
      | none => (.error (quizFailureMsg r2), [p1, p2])

/-! ## AI client (`callAI`) -/

def configErrorMsg : String := "OpenRouter API key is not configured in .env file."

def serviceErrorMsg : String := "Failed to communicate with the AI model."

/-- `callAI`, with the HTTP layer abstracted as `transport` (the error
side is the upstream failure reason axios would report: a transport error
or a non-2xx response).  The second component counts network calls made.
A missing or empty (falsy) key fails before any call. -/
def callAI (apiKey : Option String) (transport : Except String String) :
    Except String String × Nat :=
  match apiKey with
  | none => (.error configErrorMsg, 0)
  | some k =>
      if k = "" then (.error configErrorMsg, 0)
      else
        match transport with
        | .error _ => (.error serviceErrorMsg, 1)
        | .ok content => (.ok content, 1)

/-! ## Frame extraction count (`extractFrames`) -/

/-- `Math.min(12, Math.max(4, Math.floor(duration / 30)))` with the probed
duration in (possibly fractional) seconds. -/
def frameCount (duration : ℚ) : ℤ :=
  min 12 (max 4 ⌊duration / 30⌋)

/-- The clamp expression as the spec words it: `clamp(x, lo, hi)`. -/
def specClamp (x lo hi : ℤ) : ℤ :=
  max lo (min x hi)

/-! ## Lecture records and store updates

The Mongo document is modelled by `LectureRec`; `processingStage` is a
plain `String` (the schema puts no enum constraint on it — only `source`
is enum-constrained).  `findByIdAndUpdate` has merge semantics, modelled
by `Patch`/`applyPatch`: an outer `none` leaves a field untouched, and for
`processingError` an inner `none` is an explicit `null` write.
-/

structure Slide where
  timestamp : Int
  image : String
  deriving Repr, DecidableEq

structure LectureRec where
  title : String
  videoPath : Option String
  youtubeUrl : Option String
  duration : Option ℚ
  transcriptMd : Option String
  transcriptHtml : Option String
  summaryMd : Option String
  summaryHtml : Option String
  slides : List Slide
  quizzes : List Json
  processingError : Option String
  source : String
  processingStage : String
  deriving Repr

structure Patch where
  videoPath : Option String
  transcriptMd : Option String
  transcriptHtml : Option String
  summaryMd : Option String
  summaryHtml : Option String
  slides : Option (List Slide)
  quizzes : Option (List Json)
  processingError : Option (Option String)
  processingStage : Option String
  deriving Repr

/-- The empty partial update. -/
def Patch.id : Patch :=
  ⟨none, none, none, none, none, none, none, none, none⟩

def applyPatch (r : LectureRec) (p : Patch) : LectureRec :=
  { r with
    videoPath := p.videoPath.elim r.videoPath some
    transcriptMd := p.transcriptMd.elim r.transcriptMd some
    transcriptHtml := p.transcriptHtml.elim r.transcriptHtml some
    summaryMd := p.summaryMd.elim r.summaryMd some
    summaryHtml := p.summaryHtml.elim r.summaryHtml some
    slides := p.slides.getD r.slides
    quizzes := p.quizzes.getD r.quizzes
    processingError := p.processingError.getD r.processingError
    processingStage := p.processingStage.getD r.processingStage }

/-- `{ processingStage: s }` -/
def stagePatch (s : String) : Patch :=
  { Patch.id with processingStage := some s }

/-- `{ processingStage: 'summarizing', transcriptMd, transcriptHtml }` -/
def summarizingPatch (t th : String) : Patch :=
  { Patch.id with
    processingStage := some "summarizing"
    transcriptMd := some t
    transcriptHtml := some th }

/-- `{ summaryMd, summaryHtml, quizzes, slides, processingStage: 'complete',
processingError: null }` -/
def completePatch (s sh : String) (qs : List Json) (sl : List Slide) : Patch :=
  { Patch.id with
    summaryMd := some s
    summaryHtml := some sh
    quizzes := some qs
    slides := some sl
    processingStage := some "complete"
    processingError := some none }

/-- `{ processingError: error.message, processingStage: 'failed' }` -/
def failPatch (msg : String) : Patch :=
  { Patch.id with
    processingError := some (some msg)
    processingStage := some "failed" }

/-- `{ videoPath }` after a YouTube download. -/
def videoPathPatch (v : String) : Patch :=
  { Patch.id with videoPath := some v }

/-! ## Orchestrator traces

Each external long-running step is an environment function returning
`Except String` (the error side is the thrown error's message).  The
markdown renderer (`remark`) is a pure function.  A run is recorded as a
trace of events: persisted store updates and external-work invocations, in
program order.
-/

structure Env where
  downloadVideo : String → Except String String
  extractAudio : String → Except String String
  transcribe : String → Except String String
  formatTranscript : String → Except String String
  generateSummary : String → Except String String
  generateQuizzes : String → Except String (List Json)
  extractFrames : String → Except String (List Slide)
  render : String → String

inductive ExtCall where
  | downloadVideo
  | extractAudio
  | transcribe
  | formatTranscript
  | generateSummary
  | generateQuizzes
  | extractFrames
  | cleanupAudio
  deriving Repr, DecidableEq

inductive Event where
  | update (p : Patch)
  | call (c : ExtCall)
  deriving Repr

/-- Trace of `processLecture(lectureId, videoPath, title)`.  The `try`
block runs stages in order; any stage error jumps to the `catch`, whose
only action is the terminal `failed` update. -/
def processLectureTrace (env : Env) (videoPath : String) : List Event :=
  [.update (stagePatch "extracting_audio"), .call .extractAudio] ++
  match env.extractAudio videoPath with
  | .error e => [.update (failPatch e)]
  | .ok audioPath =>
    [.update (stagePatch "transcribing"), .call .transcribe] ++
    match env.transcribe audioPath with
    | .error e => [.update (failPatch e)]
    | .ok rawTranscript =>
      [.call .formatTranscript] ++
      match env.formatTranscript rawTranscript with
      | .error e => [.update (failPatch e)]
      | .ok transcript =>
        [.update (summarizingPatch transcript (env.render transcript)),
         .call .generateSummary] ++
        match env.generateSummary transcript with
        | .error e => [.update (failPatch e)]
        | .ok summary =>
          [.call .generateQuizzes] ++
          match env.generateQuizzes transcript with
          | .error e => [.update (failPatch e)]
          | .ok quizzes =>
            [.call .extractFrames] ++
            match env.extractFrames videoPath with
            | .error e => [.update (failPatch e)]
            | .ok slides =>
              [.update (completePatch summary (env.render summary) quizzes slides),
               .call .cleanupAudio]

/-- Trace of `processYouTubeLecture(lectureId, youtubeUrl, title)`.  Its
own `catch` only ever fires for the download (or the `videoPath` write):
`processLecture` handles its stages internally and does not throw. -/
def processYouTubeTrace (env : Env) (url : String) : List Event :=
  [.update (stagePatch "downloading"), .call .downloadVideo] ++
  match env.downloadVideo url with
  | .error e => [.update (failPatch e)]
  | .ok videoPath =>
    [.update (videoPathPatch videoPath)] ++ processLectureTrace env videoPath

/-- The persisted stage values of a trace, in write order. -/
def stagesOf (t : List Event) : List String :=
  t.filterMap fun e =>
    match e with
    | .update p => p.processingStage
    | .call _ => none

/-- The record after all of a trace's updates are applied. -/
def applyEvents (r : LectureRec) (t : List Event) : LectureRec :=
  t.foldl (fun acc e =>
    match e with
    | .update p => applyPatch acc p
    | .call _ => acc) r

/-- Every record the store passes through along a trace, the initial one
included. -/
def recsAlong (r : LectureRec) (t : List Event) : List LectureRec :=
  t.scanl (fun acc e =>
    match e with
    | .update p => applyPatch acc p
    | .call _ => acc) r

/-- The document `new Lecture({title, videoPath, source: 'file'})` saves
(schema defaults: stage `uploaded`, no error, empty artifact arrays). -/
def freshFileRec (title videoPath : String) : LectureRec :=
  { title := title
    videoPath := some videoPath
    youtubeUrl := none
    duration := none
    transcriptMd := none
    transcriptHtml := none
    summaryMd := none
    summaryHtml := none
    slides := []
    quizzes := []
    processingError := none
    source := "file"
    processingStage := "uploaded" }

/-- The document `new Lecture({title, youtubeUrl, source: 'youtube'})`
saves. -/
def freshYoutubeRec (title url : String) : LectureRec :=
  { freshFileRec title "" with
    videoPath := none
    youtubeUrl := some url
    source := "youtube" }

/-- The stage enum of the design (§4.6 of the spec). -/
def stageEnum : List String :=
  ["uploaded", "downloading", "extracting_audio", "transcribing",
   "summarizing", "complete", "failed"]

/-! ## Progress report (`GET /api/status/:lectureId`) -/

/-- `!!` on an optional string field: present and non-empty. -/
def jsTruthyOptStr : Option String → Bool
  | none => false
  | some s => s != ""

structure Progress where
  isComplete : Bool
  stage : String
  error : Option String
  hasTranscript : Bool
  hasSummary : Bool
  hasQuizzes : Bool
  hasSlides : Bool
  deriving Repr

/-- The JSON body computed by the status route for an existing lecture. -/
def getProgress (r : LectureRec) : Progress :=
  { isComplete := r.processingStage == "complete"
    stage := r.processingStage
    error := r.processingError
    hasTranscript := jsTruthyOptStr r.transcriptMd
    hasSummary := jsTruthyOptStr r.summaryMd
    hasQuizzes := !r.quizzes.isEmpty
    hasSlides := !r.slides.isEmpty }

/-! ## Concrete fixtures (used to instantiate theorems with hypotheses) -/

/-- An environment in which every external step succeeds. -/
def envAllOk : Env :=
  { downloadVideo := fun _ => .ok "uploads/id-youtube.mp4"
    extractAudio := fun _ => .ok "uploads/v.wav"
    transcribe := fun _ => .ok "hello world"
    formatTranscript := fun s => .ok s
    generateSummary := fun _ => .ok "summary"
    generateQuizzes := fun _ => .ok [Json.num 1]
    extractFrames := fun _ => .ok [⟨30, "/frames_id/slide_001.png"⟩]
    render := fun s => s ++ "<p>" }

/-- `envAllOk` with the summary stage failing. -/
def envFailSummary : Env :=
  { envAllOk with generateSummary := fun _ => .error "Failed to communicate with the AI model." }

/-- `envAllOk` with audio extraction failing. -/
def envFailAudio : Env :=
  { envAllOk with extractAudio := fun _ => .error "ffmpeg exited with code 1" }

/-- `envAllOk` with the YouTube download failing. -/
def envFailDownload : Env :=
  { envAllOk with downloadVideo := fun _ => .error "yt-dlp failed with code 1. Make sure it is installed and in your system's PATH." }

/-- An AI that always answers with a parseable array. -/
def aiArray : String → String := fun _ => "ok: [1]"

/-- An AI that never produces JSON. -/
def aiGarbage : String → String := fun _ => "garbage"

/-- An AI whose first answer is malformed and whose corrective answer is
valid. -/
def aiSecondTry : String → String :=
  fun p => if p = initialPrompt "t" then "no brackets" else "[1]"

/-- A fixed comparator stream. -/
def cmpTT : Nat → Nat → Bool := fun _ _ => true

/-! # Lemmas -/

theorem insertR_perm (cmp : Nat → Bool) (a : α) :
    ∀ (l : List α) (n : Nat), ((insertR cmp a l n).1).Perm (a :: l)
  | [], _ => by simp [insertR]
  | b :: bs, n => by
      by_cases h : cmp n = true
      · simp [insertR, h]
      · simp only [insertR, h, if_false]
        exact ((insertR_perm cmp a bs (n + 1)).cons b).trans (List.Perm.swap a b bs)

theorem sortRAux_perm (cmp : Nat → Bool) :
    ∀ (l : List α) (n : Nat), ((sortRAux cmp l n).1).Perm l
  | [], _ => by simp [sortRAux]
  | a :: as, n => by
      simp only [sortRAux]
      exact (insertR_perm cmp a _ _).trans ((sortRAux_perm cmp as n).cons a)

/-- Whatever booleans the random comparator produces, the sorted list is a
permutation of the input. -/
theorem sortR_perm (cmp : Nat → Bool) (l : List α) (n : Nat) :
    ((sortR cmp l n).1).Perm l :=
  sortRAux_perm cmp l n

theorem findIdxP_some_of_mem {p : α → Bool} :
    ∀ {l : List α} {a : α}, a ∈ l → p a = true → ∃ j, findIdxP p l = some j
  | b :: bs, a, h, hp => by
      by_cases hb : p b = true
      · exact ⟨0, by simp [findIdxP, hb]⟩
      · rcases List.mem_cons.mp h with rfl | h2
        · exact absurd hp hb
        · obtain ⟨j, hj⟩ := findIdxP_some_of_mem h2 hp
          exact ⟨j + 1, by simp [findIdxP, hb, hj]⟩

theorem findIdxP_found {p : α → Bool} :
    ∀ {l : List α} {j : Nat}, findIdxP p l = some j →
      ∃ w, l[j]? = some w ∧ p w = true
  | [], j, h => by simp [findIdxP] at h
  | b :: bs, j, h => by
      by_cases hb : p b = true
      · simp only [findIdxP, hb, if_true, Option.some.injEq] at h
        subst h
        exact ⟨b, by simp, hb⟩
      · simp only [findIdxP, hb, if_false] at h
        cases hfb : findIdxP p bs with
        | none => rw [hfb] at h; simp at h
        | some j2 =>
            rw [hfb] at h
            simp at h
            subst h
            obtain ⟨w, hw, hpw⟩ := findIdxP_found hfb
            exact ⟨w, by simpa using hw, hpw⟩

theorem firstIdxOf_eq_none {c : Char} :
    ∀ {l : List Char}, firstIdxOf c l = none ↔ c ∉ l
  | [] => by simp [firstIdxOf]
  | x :: xs => by
      by_cases h : x = c
      · subst h
        simp [firstIdxOf]
      · have ih := firstIdxOf_eq_none (c := c) (l := xs)
        simp only [firstIdxOf, h, if_false, Option.map_eq_none', ih,
          List.mem_cons, not_or]
        constructor
        · intro h2
          exact ⟨fun hc => h hc.symm, h2⟩
        · intro h2
          exact h2.2

theorem firstIdxOf_append {c : Char} :
    ∀ {p : List Char} (l : List Char), c ∉ p →
      firstIdxOf c (p ++ l) = (firstIdxOf c l).map (· + p.length)
  | [], l, _ => by
      simp [firstIdxOf]
  | x :: p2, l, hp => by
      have hx : ¬(x = c) := fun h => hp (h ▸ List.mem_cons_self x p2)
      have hp2 : c ∉ p2 := fun h => hp (List.mem_cons_of_mem x h)
      have ih := firstIdxOf_append (p := p2) l hp2
      simp only [List.cons_append, firstIdxOf, List.append_eq]
      rw [if_neg hx, ih]
      cases firstIdxOf c l with
      | none => rfl
      | some v => simp [List.length_cons, Nat.add_assoc]

theorem lastIdxOf_concat {p a s : List Char} (hs : (']' : Char) ∉ s)
    (ha : a.getLast? = some ']') :
    lastIdxOf ']' (p ++ a ++ s) = some (p.length + a.length - 1) := by
  have hrev : a.reverse.head? = some ']' := by
    rw [List.head?_reverse]
    exact ha
  obtain ⟨w, hw⟩ : ∃ w, a.reverse = ']' :: w := by
    cases hrv : a.reverse with
    | nil => rw [hrv] at hrev; simp at hrev
    | cons x ws =>
        rw [hrv] at hrev
        simp only [List.head?_cons, Option.some.injEq] at hrev
        exact ⟨ws, by rw [hrev]⟩
  have hsrev : (']' : Char) ∉ s.reverse := by
    simpa using hs
  have halen : a.length = w.length + 1 := by
    have h2 := congrArg List.length hw
    simpa using h2
  have h1 : (p ++ a ++ s).reverse = s.reverse ++ (a.reverse ++ p.reverse) := by
    rw [List.reverse_append, List.reverse_append]
  unfold lastIdxOf
  rw [h1, firstIdxOf_append _ hsrev, hw]
  simp [firstIdxOf]
  omega

/-- `substring` over a concatenation, from the start of the middle part to
its end, returns exactly the middle part. -/
theorem jsSubstring_extract (p a s : List Char) :
    jsSubstring (p ++ a ++ s) p.length (p.length + a.length) = a := by
  simp only [jsSubstring]
  have hlen : (p ++ a ++ s).length = p.length + a.length + s.length := by
    rw [List.length_append, List.length_append]
  have e1 : min p.length (p ++ a ++ s).length = p.length := by rw [hlen]; omega
  have e2 : min (p.length + a.length) (p ++ a ++ s).length =
      p.length + a.length := by rw [hlen]; omega
  rw [e1, e2]
  have e3 : min p.length (p.length + a.length) = p.length := by omega
  have e4 : max p.length (p.length + a.length) = p.length + a.length := by omega
  rw [e3, e4, ← List.length_append p a, List.take_left, List.drop_left]

/-- `Json.beq` against a string value holds exactly for that string
value. -/
theorem Json.beq_str_iff (w : Json) (s : String) :
    Json.beq w (.str s) = true ↔ w = .str s := by
  cases w <;> simp [Json.beq]

/-! # Claims -/

/-- C7: for every positive video duration `d`, the number of frames
requested by `extractFrames` equals `clamp(floor(d / 30), 4, 12)` and is
always in the range `[4, 12]`. -/
theorem c7_frame_count (d : ℚ) (hd : 0 < d) :
    frameCount d = specClamp ⌊d / 30⌋ 4 12 ∧
      4 ≤ frameCount d ∧ frameCount d ≤ 12 := by
  unfold frameCount specClamp
  omega

/-- Witness for C7 at the spec's own example `d = 90`
(`floor(90/30) = 3`, clamped up to 4). -/
theorem c7_witness :
    (0 : ℚ) < 90 ∧
      (frameCount 90 = specClamp ⌊(90 : ℚ) / 30⌋ 4 12 ∧
        4 ≤ frameCount 90 ∧ frameCount 90 ≤ 12) :=
  ⟨by norm_num, c7_frame_count 90 (by norm_num)⟩

/-- C8 counterexample: the claim says the `ServiceError` message "wraps the
upstream failure reason", but `callAI` throws the fixed message
`Failed to communicate with the AI model.` — at a concrete transport
failure (`connect ECONNREFUSED`) the thrown message does not contain the
upstream reason. -/
theorem c8_counterexample :
    callAI (some "sk-or-v1-test") (.error "connect ECONNREFUSED") =
      (.error serviceErrorMsg, 1) ∧
    ¬ ("connect ECONNREFUSED".toList <:+: serviceErrorMsg.toList) := by
  constructor
  · rfl
  · decide

/-- C8 as amended: with no credential configured (missing or empty key)
`callAI` fails with the configuration message before any network call
(call count 0); on any transport or non-success response it fails with the
fixed service-error message (the upstream reason is logged, not included
in the thrown message). -/
theorem c8_error_paths :
    (∀ transport, callAI none transport = (.error configErrorMsg, 0)) ∧
    (∀ transport, callAI (some "") transport = (.error configErrorMsg, 0)) ∧
    (∀ (k reason : String), k ≠ "" →
        callAI (some k) (.error reason) = (.error serviceErrorMsg, 1)) ∧
    (∀ (k content : String), k ≠ "" →
        callAI (some k) (.ok content) = (.ok content, 1)) := by
  refine ⟨fun _ => rfl, fun _ => rfl, ?_, ?_⟩
  · intro k reason hk
    simp [callAI, hk]
  · intro k content hk
    simp [callAI, hk]

/-- Witness for C8's amended theorem at a concrete key and transport
failure. -/
theorem c8_witness :
    ("sk-or-v1-test" : String) ≠ "" ∧
      callAI (some "sk-or-v1-test") (.error "socket hang up") =
        (.error serviceErrorMsg, 1) :=
  ⟨by decide, c8_error_paths.2.2.1 "sk-or-v1-test" "socket hang up" (by decide)⟩

/-- C10: for every lecture record, the progress report's `isComplete` is
true iff the persisted stage is `complete`, and each presence flag is true
iff the corresponding persisted field is present and non-empty. -/
theorem c10_progress_report (r : LectureRec) :
    ((getProgress r).isComplete = true ↔ r.processingStage = "complete") ∧
    ((getProgress r).hasTranscript = true ↔ ∃ s, r.transcriptMd = some s ∧ s ≠ "") ∧
    ((getProgress r).hasSummary = true ↔ ∃ s, r.summaryMd = some s ∧ s ≠ "") ∧
    ((getProgress r).hasQuizzes = true ↔ r.quizzes ≠ []) ∧
    ((getProgress r).hasSlides = true ↔ r.slides ≠ []) ∧
    (getProgress r).stage = r.processingStage ∧
    (getProgress r).error = r.processingError := by
  unfold getProgress
  refine ⟨by simp, ?_, ?_, ?_, ?_, rfl, rfl⟩
  · cases r.transcriptMd <;> simp [jsTruthyOptStr]
  · cases r.summaryMd <;> simp [jsTruthyOptStr]
  · cases r.quizzes <;> simp
  · cases r.slides <;> simp

/-- C2 counterexample: the claim says a first response that parses costs
only 1 AI call, but parsing is not the whole first attempt — for the first
response `[null]`, bracket extraction and `JSON.parse` succeed, yet
`quiz.options` on the `null` item throws inside the same `try`, so a
second (corrective) call is issued: 2 prompts are sent, not 1. -/
theorem c2_counterexample :
    extractAndParse ((fun _ : String => "[null]") (initialPrompt "t")).toList =
      some (.arr [.null]) ∧
    (generateQuizzes (fun _ => "[null]") cmpTT "t").2 =
      [initialPrompt "t", correctivePromptPrefix ++ "[null]"] ∧
    (generateQuizzes (fun _ => "[null]") cmpTT "t").2.length = 2 :=
  ⟨rfl, rfl, rfl⟩

/-- C2 as amended: quiz generation makes at most 2 AI calls, where an
attempt succeeds only when bracket extraction, JSON parsing and the
shuffle pass all succeed.  If the whole first attempt succeeds, exactly
one call occurs; if it fails — a missing bracket, a parse error, or an
exception thrown while shuffling a parsed array — exactly one corrective
round is issued whose prompt is the fixed corrective text followed by the
previous raw response; if that attempt also fails, generation fails with
the quiz-generation error whose message carries the last raw response,
after exactly 2 calls and no more. -/
theorem c2_quiz_retry (ai : String → String) (cmp : Nat → Nat → Bool) (t : String) :
    (∀ qs, parseAndShuffle (cmp 0) (ai (initialPrompt t)).toList = some qs →
        generateQuizzes ai cmp t = (.ok qs, [initialPrompt t])) ∧
    (parseAndShuffle (cmp 0) (ai (initialPrompt t)).toList = none →
      ∀ qs,
        parseAndShuffle (cmp 1)
            (ai (correctivePromptPrefix ++ ai (initialPrompt t))).toList = some qs →
        generateQuizzes ai cmp t =
          (.ok qs, [initialPrompt t, correctivePromptPrefix ++ ai (initialPrompt t)])) ∧
    (parseAndShuffle (cmp 0) (ai (initialPrompt t)).toList = none →
      parseAndShuffle (cmp 1)
          (ai (correctivePromptPrefix ++ ai (initialPrompt t))).toList = none →
        generateQuizzes ai cmp t =
          (.error (quizFailureMsgPrefix ++
              ai (correctivePromptPrefix ++ ai (initialPrompt t))),
           [initialPrompt t, correctivePromptPrefix ++ ai (initialPrompt t)])) := by
  refine ⟨?_, ?_, ?_⟩
  · intro qs h
    have hb : parseAndShuffle (cmp 0) (ai (initialPrompt t)).data = some qs := h
    simp [generateQuizzes, hb]
  · intro h1 qs h2
    have h1b : parseAndShuffle (cmp 0) (ai (initialPrompt t)).data = none := h1
    have h2b : parseAndShuffle (cmp 1)
        (ai (correctivePromptPrefix ++ ai (initialPrompt t))).data = some qs := h2
    simp [generateQuizzes, correctivePrompt, h1b, h2b]
  · intro h1 h2
    have h1b : parseAndShuffle (cmp 0) (ai (initialPrompt t)).data = none := h1
    have h2b : parseAndShuffle (cmp 1)
        (ai (correctivePromptPrefix ++ ai (initialPrompt t))).data = none := h2
    simp [generateQuizzes, correctivePrompt, quizFailureMsg, h1b, h2b]

set_option maxRecDepth 16384 in
/-- Witness for C2 on concrete AI behaviors: a first-try success (1 call),
a malformed-then-fixed pair (2 calls, success from the second response),
and two consecutive malformed responses (failure carrying the last
response, 2 calls). -/
theorem c2_witness :
    parseAndShuffle (cmpTT 0) (aiSecondTry (initialPrompt "t")).toList = none ∧
    generateQuizzes aiArray cmpTT "t" = (.ok [Json.num 1], [initialPrompt "t"]) ∧
    generateQuizzes aiSecondTry cmpTT "t" =
      (.ok [Json.num 1], [initialPrompt "t", correctivePromptPrefix ++ "no brackets"]) ∧
    generateQuizzes aiGarbage cmpTT "t" =
      (.error (quizFailureMsgPrefix ++ "garbage"),
       [initialPrompt "t", correctivePromptPrefix ++ "garbage"]) := by
  refine ⟨rfl, ?_, ?_, ?_⟩
  · exact (c2_quiz_retry aiArray cmpTT "t").1 [Json.num 1] rfl
  · exact (c2_quiz_retry aiSecondTry cmpTT "t").2.1 rfl [Json.num 1] rfl
  · exact (c2_quiz_retry aiGarbage cmpTT "t").2.2 rfl rfl

/-- C9 counterexample: not every successfully parsed JSON array is
accepted.  `[null]` parses to a one-element array, but the shuffle loop's
`quiz.options` access throws on the `null` item, so the attempt fails and,
with both responses equal to `[null]`, generation fails instead of
returning the parsed array. -/
theorem c9_counterexample :
    extractAndParse "[null]".toList = some (.arr [.null]) ∧
    parseAndShuffle (cmpTT 0) "[null]".toList = none ∧
    (generateQuizzes (fun _ => "[null]") cmpTT "t").1 =
      .error (quizFailureMsg "[null]") :=
  ⟨rfl, rfl, rfl⟩

/-- C9 as amended: on a successful parse the parsed array is returned
without any shape validation — no 5-item check, no 4-option check, no
index-validity check: any parsed array whose items survive the shuffle
step is accepted as-is (second conjunct, quantified over arbitrary parsed
arrays `l`), and an item lacking an `options` field or a `correctAnswer`
field is passed through unshuffled and unmodified (first conjunct). -/
theorem c9_no_shape_validation :
    (∀ (cmp : Nat → Bool) (q : Json) (n : Nat),
        jsGet q "options" = some none ∨ jsGet q "correctAnswer" = some none →
        shuffleItem cmp q n = some (q, n)) ∧
    (∀ (ai : String → String) (cmp : Nat → Nat → Bool) (t : String) l out,
        extractAndParse (ai (initialPrompt t)).toList = some (.arr l) →
        shuffleItems (cmp 0) l 0 = some out →
        generateQuizzes ai cmp t = (.ok out.1, [initialPrompt t])) := by
  constructor
  · intro cmp q n h
    rcases h with h | h
    · obtain ⟨ca, hca⟩ : ∃ ca, jsGet q "correctAnswer" = some ca := by
        cases q <;> simp [jsGet] at h ⊢
      simp [shuffleItem, h, hca]
    · obtain ⟨ov, hov⟩ : ∃ ov, jsGet q "options" = some ov := by
        cases q <;> simp [jsGet] at h ⊢
      cases ov with
      | none => simp [shuffleItem, hov, h]
      | some opts =>
          by_cases ht : jsTruthy opts = false
          · simp [shuffleItem, hov, h, ht]
          · simp [shuffleItem, hov, h, ht]
  · intro ai cmp t l out h1 h2
    have h1b : extractAndParse (ai (initialPrompt t)).data = some (.arr l) := h1
    have hps : parseAndShuffle (cmp 0) (ai (initialPrompt t)).data = some out.1 := by
      simp [parseAndShuffle, h1b, h2]
    simp [generateQuizzes, hps]

/-- Witness for C9's amended theorem: a field-lacking item passes through
unchanged, and an empty parsed array is accepted as a successful result in
one call. -/
theorem c9_witness :
    jsGet (Json.obj [("question", Json.str "q")]) "options" = some none ∧
    shuffleItem (cmpTT 0) (Json.obj [("question", Json.str "q")]) 0 =
      some (Json.obj [("question", Json.str "q")], 0) ∧
    extractAndParse ((fun _ : String => "[]") (initialPrompt "t")).toList =
      some (.arr []) ∧
    generateQuizzes (fun _ => "[]") cmpTT "t" =
      (.ok ([] : List Json), [initialPrompt "t"]) := by
  refine ⟨rfl, ?_, rfl, ?_⟩
  · exact c9_no_shape_validation.1 (cmpTT 0) (Json.obj [("question", Json.str "q")]) 0
      (Or.inl rfl)
  · exact c9_no_shape_validation.2 (fun _ => "[]") cmpTT "t" [] ([], 0) rfl rfl

/-- C3: for a quiz item with 4 option strings and a valid `correctAnswer`
index, the shuffle step replaces `options` with a permutation of the
original 4 strings and resets `correctAnswer` so that the option at the
new index is the text of the option that was correct before shuffling —
for every behavior of the random comparator. -/
theorem c3_shuffle_correct (cmp : Nat → Bool) (n : Nat)
    (fields : List (String × Json)) (opts : List String) (i : Nat)
    (hopts : jsGet (.obj fields) "options" =
      some (some (.arr (opts.map Json.str))))
    (hca : jsGet (.obj fields) "correctAnswer" =
      some (some (.num (i : Int))))
    (hlen : opts.length = 4) (hi : i < 4) :
    ∃ (ys : List Json) (j : Nat),
      shuffleItem cmp (.obj fields) n =
        some (.obj (setField (setField fields "options" (.arr ys))
            "correctAnswer" (.num (j : Int))),
          (sortR cmp (opts.map Json.str) n).2) ∧
      ys.Perm (opts.map Json.str) ∧
      ys[j]? = (opts.map Json.str)[i]? := by
  have hperm := sortR_perm cmp (opts.map Json.str) n
  have hilen : i < opts.length := by omega
  have hoi : opts[i]? = some opts[i] := List.getElem?_eq_getElem hilen
  have htext : jsIndexAccess (opts.map Json.str) (.num (i : Int)) =
      some (Json.str opts[i]) := by
    simp [jsIndexAccess, List.getElem?_map, hoi]
  have hmm : (opts.map Json.str)[i]? = some (Json.str opts[i]) := by
    simp [List.getElem?_map, hoi]
  have hmem : Json.str opts[i] ∈ opts.map Json.str := List.getElem?_mem hmm
  have hmem2 : Json.str opts[i] ∈ (sortR cmp (opts.map Json.str) n).1 :=
    hperm.mem_iff.mpr hmem
  have hbeq : Json.beq (Json.str opts[i]) (Json.str opts[i]) = true := by
    simp [Json.beq]
  obtain ⟨j, hj⟩ := findIdxP_some_of_mem
    (p := fun x => Json.beq x (Json.str opts[i])) hmem2 hbeq
  obtain ⟨w, hw, hpw⟩ := findIdxP_found hj
  have hw2 : w = Json.str opts[i] := (Json.beq_str_iff w opts[i]).mp hpw
  subst hw2
  refine ⟨(sortR cmp (opts.map Json.str) n).1, j, ?_, hperm, ?_⟩
  · simp only [shuffleItem, hopts, hca, jsTruthy, htext, jsIndexOf, hj]
    simp
  · rw [hw, hmm]

/-- Witness for C3 at a concrete 4-option quiz item (correct answer at
index 1) and a concrete comparator. -/
theorem c3_witness :
    jsGet (Json.obj [("question", Json.str "q"),
        ("options", Json.arr (["A", "B", "C", "D"].map Json.str)),
        ("correctAnswer", Json.num ((1 : Nat) : Int)),
        ("explanation", Json.str "e")]) "options" =
      some (some (.arr (["A", "B", "C", "D"].map Json.str))) ∧
    (["A", "B", "C", "D"] : List String).length = 4 ∧ 1 < 4 ∧
    (∃ (ys : List Json) (j : Nat),
      shuffleItem (fun _ => false)
          (Json.obj [("question", Json.str "q"),
            ("options", Json.arr (["A", "B", "C", "D"].map Json.str)),
            ("correctAnswer", Json.num ((1 : Nat) : Int)),
            ("explanation", Json.str "e")]) 0 =
        some (.obj (setField (setField
            [("question", Json.str "q"),
             ("options", Json.arr (["A", "B", "C", "D"].map Json.str)),
             ("correctAnswer", Json.num ((1 : Nat) : Int)),
             ("explanation", Json.str "e")] "options" (.arr ys))
            "correctAnswer" (.num (j : Int))),
          (sortR (fun _ => false) (["A", "B", "C", "D"].map Json.str) 0).2) ∧
      ys.Perm (["A", "B", "C", "D"].map Json.str) ∧
      ys[j]? = (["A", "B", "C", "D"].map Json.str)[1]?) := by
  refine ⟨rfl, rfl, by omega, ?_⟩
  exact c3_shuffle_correct (fun _ => false) 0
    [("question", Json.str "q"),
     ("options", Json.arr (["A", "B", "C", "D"].map Json.str)),
     ("correctAnswer", Json.num ((1 : Nat) : Int)),
     ("explanation", Json.str "e")]
    ["A", "B", "C", "D"] 1 rfl rfl rfl (by omega)

/-- C4 counterexample: the claim promises extraction for a well-formed
JSON array embedded in arbitrary prose, but prose containing a stray
bracket breaks the first-`[`-to-last-`]` slice.  `"x[[1]"` is the prose
`"x["` followed by the well-formed array `"[1]"` (its only well-formed
array substring), yet the sliced text `"[[1]"` fails to parse, so the
attempt fails. -/
theorem c4_counterexample :
    jsonParse "[1]".toList = some (.arr [.num 1]) ∧
    ("x[" ++ "[1]" ++ "" : String) = "x[[1]" ∧
    extractJsonSlice "x[[1]".toList = some "[[1]".toList ∧
    extractAndParse "x[[1]".toList = none :=
  ⟨rfl, rfl, rfl, rfl⟩

/-- C4 as amended: the parser slices from the first `[` to the last `]`
(inclusive) and parses that substring; for every response made of a
well-formed JSON array with surrounding prose whose leading part contains
no `[` and whose trailing part contains no `]`, it extracts exactly the
array text and returns the parsed array unmodified; and if the response
contains no `[` or no `]`, the attempt fails. -/
theorem c4_bracket_extraction :
    (∀ (p a s : List Char) (v : List Json),
        ('[' : Char) ∉ p → (']' : Char) ∉ s →
        a.head? = some '[' → a.getLast? = some ']' →
        jsonParse a = some (.arr v) →
        extractJsonSlice (p ++ a ++ s) = some a ∧
        extractAndParse (p ++ a ++ s) = some (.arr v)) ∧
    (∀ r : List Char, ('[' : Char) ∉ r ∨ (']' : Char) ∉ r →
        extractJsonSlice r = none) := by
  constructor
  · intro p a s v hp hs hh hl hparse
    obtain ⟨t, rfl⟩ : ∃ t, a = '[' :: t := by
      cases a with
      | nil => simp at hh
      | cons x xs =>
          simp only [List.head?_cons, Option.some.injEq] at hh
          exact ⟨xs, by rw [hh]⟩
    have hfi : firstIdxOf '[' (p ++ '[' :: t ++ s) = some p.length := by
      rw [List.append_assoc, firstIdxOf_append _ hp]
      simp [firstIdxOf]
    have hli : lastIdxOf ']' (p ++ '[' :: t ++ s) =
        some (p.length + ('[' :: t).length - 1) := lastIdxOf_concat hs hl
    have hstep : p.length + ('[' :: t).length - 1 + 1 =
        p.length + ('[' :: t).length := by
      simp only [List.length_cons]
      omega
    have hslice : extractJsonSlice (p ++ '[' :: t ++ s) = some ('[' :: t) := by
      unfold extractJsonSlice
      rw [hfi, hli]
      dsimp only
      rw [hstep, jsSubstring_extract]
    refine ⟨hslice, ?_⟩
    unfold extractAndParse
    rw [hslice]
    exact hparse
  · intro r h
    rcases h with h | h
    · have h2 : firstIdxOf '[' r = none := firstIdxOf_eq_none.mpr h
      simp [extractJsonSlice, h2]
    · have h2 : firstIdxOf ']' r.reverse = none :=
        firstIdxOf_eq_none.mpr (by simpa using h)
      unfold extractJsonSlice lastIdxOf
      rw [h2]
      cases firstIdxOf '[' r <;> rfl

/-- Witness for C4's amended theorem: a concrete array wrapped in
bracket-free prose is extracted and parsed, and a bracketless response
fails. -/
theorem c4_witness :
    ('[' : Char) ∉ "Sure: ".toList ∧ (']' : Char) ∉ " done".toList ∧
    extractJsonSlice ("Sure: ".toList ++ "[1]".toList ++ " done".toList) =
      some "[1]".toList ∧
    extractAndParse ("Sure: ".toList ++ "[1]".toList ++ " done".toList) =
      some (.arr [.num 1]) ∧
    extractJsonSlice "no brackets here".toList = none := by
  have h := c4_bracket_extraction.1 "Sure: ".toList "[1]".toList " done".toList
    [.num 1] (by decide) (by decide) rfl rfl rfl
  exact ⟨by decide, by decide, h.1, h.2,
    c4_bracket_extraction.2 "no brackets here".toList (Or.inl (by decide))⟩

/-- A file-pipeline run that persists `complete` must have had every stage
succeed, and its trace is exactly the straight-line event list of the
`try` block. -/
theorem processLectureTrace_complete_shape (env : Env) (vp : String)
    (h : "complete" ∈ stagesOf (processLectureTrace env vp)) :
    ∃ t su qs sl,
      processLectureTrace env vp =
        [.update (stagePatch "extracting_audio"), .call .extractAudio,
         .update (stagePatch "transcribing"), .call .transcribe,
         .call .formatTranscript,
         .update (summarizingPatch t (env.render t)), .call .generateSummary,
         .call .generateQuizzes, .call .extractFrames,
         .update (completePatch su (env.render su) qs sl), .call .cleanupAudio] := by
  rcases hA : env.extractAudio vp with eA | audioPath
  · simp [processLectureTrace, hA, stagesOf, stagePatch, failPatch, Patch.id] at h
  · rcases hB : env.transcribe audioPath with eB | raw
    · simp [processLectureTrace, hA, hB, stagesOf, stagePatch, failPatch,
        Patch.id] at h
    · rcases hC : env.formatTranscript raw with eC | transcript
      · simp [processLectureTrace, hA, hB, hC, stagesOf, stagePatch, failPatch,
          Patch.id] at h
      · rcases hD : env.generateSummary transcript with eD | summary
        · simp [processLectureTrace, hA, hB, hC, hD, stagesOf, stagePatch,
            summarizingPatch, failPatch, Patch.id] at h
        · rcases hE : env.generateQuizzes transcript with eE | qs
          · simp [processLectureTrace, hA, hB, hC, hD, hE, stagesOf, stagePatch,
              summarizingPatch, failPatch, Patch.id] at h
          · rcases hF : env.extractFrames vp with eF | sl
            · simp [processLectureTrace, hA, hB, hC, hD, hE, hF, stagesOf,
                stagePatch, summarizingPatch, failPatch, Patch.id] at h
            · exact ⟨transcript, summary, qs, sl, by
                simp [processLectureTrace, hA, hB, hC, hD, hE, hF]⟩

/-- The persisted stage sequence of a completing file run. -/
theorem processLectureTrace_stages_complete (env : Env) (vp : String)
    (h : "complete" ∈ stagesOf (processLectureTrace env vp)) :
    stagesOf (processLectureTrace env vp) =
      ["extracting_audio", "transcribing", "summarizing", "complete"] := by
  obtain ⟨t, su, qs, sl, htr⟩ := processLectureTrace_complete_shape env vp h
  rw [htr]
  simp [stagesOf, stagePatch, summarizingPatch, completePatch, Patch.id]

/-- C1: a successful file-sourced run persists the stage values in exactly
the order `extracting_audio, transcribing, summarizing, complete`, each
stage update preceding that stage's work in the trace; the formatted
transcript and its markup ride on the `summarizing` update, and the
summary markup, quizzes and slides ride on the single final `complete`
update; a successful YouTube-sourced run persists `downloading` before
`extracting_audio`. -/
theorem c1_pipeline_order :
    (∀ (env : Env) (vp : String),
        "complete" ∈ stagesOf (processLectureTrace env vp) →
        (∃ t su qs sl,
          processLectureTrace env vp =
            [.update (stagePatch "extracting_audio"), .call .extractAudio,
             .update (stagePatch "transcribing"), .call .transcribe,
             .call .formatTranscript,
             .update (summarizingPatch t (env.render t)), .call .generateSummary,
             .call .generateQuizzes, .call .extractFrames,
             .update (completePatch su (env.render su) qs sl),
             .call .cleanupAudio]) ∧
        stagesOf (processLectureTrace env vp) =
          ["extracting_audio", "transcribing", "summarizing", "complete"]) ∧
    (∀ (env : Env) (url : String),
        "complete" ∈ stagesOf (processYouTubeTrace env url) →
        stagesOf (processYouTubeTrace env url) =
          ["downloading", "extracting_audio", "transcribing", "summarizing",
           "complete"]) := by
  constructor
  · intro env vp h
    exact ⟨processLectureTrace_complete_shape env vp h,
      processLectureTrace_stages_complete env vp h⟩
  · intro env url h
    rcases hD : env.downloadVideo url with eD | vp
    · simp [processYouTubeTrace, hD, stagesOf, stagePatch, failPatch,
        Patch.id] at h
    · have hsplit : stagesOf (processYouTubeTrace env url) =
          "downloading" :: stagesOf (processLectureTrace env vp) := by
        simp [processYouTubeTrace, hD, stagesOf, stagePatch, videoPathPatch,
          Patch.id, List.filterMap_append]
      rw [hsplit] at h ⊢
      have h2 : "complete" ∈ stagesOf (processLectureTrace env vp) := by
        rcases List.mem_cons.mp h with heq | hm
        · exact absurd heq (by decide)
        · exact hm
      rw [processLectureTrace_stages_complete env vp h2]

/-- Witness for C1 in the all-success environment, both for a file run and
a YouTube run. -/
theorem c1_witness :
    "complete" ∈ stagesOf (processLectureTrace envAllOk "uploads/v.mp4") ∧
    stagesOf (processLectureTrace envAllOk "uploads/v.mp4") =
      ["extracting_audio", "transcribing", "summarizing", "complete"] ∧
    "complete" ∈ stagesOf (processYouTubeTrace envAllOk "https://y.tb/x") ∧
    stagesOf (processYouTubeTrace envAllOk "https://y.tb/x") =
      ["downloading", "extracting_audio", "transcribing", "summarizing",
       "complete"] := by
  refine ⟨by decide, ?_, by decide, ?_⟩
  · exact (c1_pipeline_order.1 envAllOk "uploads/v.mp4" (by decide)).2
  · exact c1_pipeline_order.2 envAllOk "https://y.tb/x" (by decide)

theorem applyEvents_append (r : LectureRec) (t1 t2 : List Event) :
    applyEvents r (t1 ++ t2) = applyEvents (applyEvents r t1) t2 :=
  List.foldl_append ..

theorem recsAlong_cons (r0 : LectureRec) (e : Event) (t : List Event) :
    recsAlong r0 (e :: t) =
      r0 :: recsAlong (match e with
        | .update p => applyPatch r0 p
        | .call _ => r0) t := rfl

/-- Failure analysis of a file-pipeline run: if `complete` is never
persisted, the run ended in the `catch` — the final record is `failed`
with the caught message, the failure update is the last event, the
late-stage artifacts (summary, quizzes, slides) are untouched, and the
transcript is either untouched or persisted together with its markup. -/
theorem processLectureTrace_failed (env : Env) (vp : String) (r0 : LectureRec)
    (h : "complete" ∉ stagesOf (processLectureTrace env vp)) :
    (applyEvents r0 (processLectureTrace env vp)).processingStage = "failed" ∧
    (∃ m pre, (applyEvents r0 (processLectureTrace env vp)).processingError = some m ∧
      processLectureTrace env vp = pre ++ [.update (failPatch m)]) ∧
    (applyEvents r0 (processLectureTrace env vp)).summaryMd = r0.summaryMd ∧
    (applyEvents r0 (processLectureTrace env vp)).summaryHtml = r0.summaryHtml ∧
    (applyEvents r0 (processLectureTrace env vp)).quizzes = r0.quizzes ∧
    (applyEvents r0 (processLectureTrace env vp)).slides = r0.slides ∧
    ((applyEvents r0 (processLectureTrace env vp)).transcriptMd = r0.transcriptMd ∧
      (applyEvents r0 (processLectureTrace env vp)).transcriptHtml = r0.transcriptHtml ∨
     ∃ t, (applyEvents r0 (processLectureTrace env vp)).transcriptMd = some t ∧
       (applyEvents r0 (processLectureTrace env vp)).transcriptHtml =
         some (env.render t)) := by
  rcases hA : env.extractAudio vp with eA | audioPath
  · have hfin : applyEvents r0 (processLectureTrace env vp) =
        { r0 with processingStage := "failed", processingError := some eA } := by
      simp [processLectureTrace, hA, applyEvents, applyPatch, stagePatch,
        failPatch, Patch.id]
    have htr : processLectureTrace env vp =
        [.update (stagePatch "extracting_audio"), .call .extractAudio] ++
          [.update (failPatch eA)] := by
      simp [processLectureTrace, hA]
    rw [hfin]
    exact ⟨rfl, ⟨eA, _, rfl, htr⟩, rfl, rfl, rfl, rfl, Or.inl ⟨rfl, rfl⟩⟩
  · rcases hB : env.transcribe audioPath with eB | raw
    · have hfin : applyEvents r0 (processLectureTrace env vp) =
          { r0 with processingStage := "failed", processingError := some eB } := by
        simp [processLectureTrace, hA, hB, applyEvents, applyPatch, stagePatch,
          failPatch, Patch.id]
      have htr : processLectureTrace env vp =
          [.update (stagePatch "extracting_audio"), .call .extractAudio,
           .update (stagePatch "transcribing"), .call .transcribe] ++
            [.update (failPatch eB)] := by
        simp [processLectureTrace, hA, hB]
      rw [hfin]
      exact ⟨rfl, ⟨eB, _, rfl, htr⟩, rfl, rfl, rfl, rfl, Or.inl ⟨rfl, rfl⟩⟩
    · rcases hC : env.formatTranscript raw with eC | transcript
      · have hfin : applyEvents r0 (processLectureTrace env vp) =
            { r0 with processingStage := "failed", processingError := some eC } := by
          simp [processLectureTrace, hA, hB, hC, applyEvents, applyPatch,
            stagePatch, failPatch, Patch.id]
        have htr : processLectureTrace env vp =
            [.update (stagePatch "extracting_audio"), .call .extractAudio,
             .update (stagePatch "transcribing"), .call .transcribe,
             .call .formatTranscript] ++ [.update (failPatch eC)] := by
          simp [processLectureTrace, hA, hB, hC]
        rw [hfin]
        exact ⟨rfl, ⟨eC, _, rfl, htr⟩, rfl, rfl, rfl, rfl, Or.inl ⟨rfl, rfl⟩⟩
      · rcases hD : env.generateSummary transcript with eD | summary
        · have hfin : applyEvents r0 (processLectureTrace env vp) =
              { r0 with
                transcriptMd := some transcript
                transcriptHtml := some (env.render transcript)
                processingStage := "failed"
                processingError := some eD } := by
            simp [processLectureTrace, hA, hB, hC, hD, applyEvents, applyPatch,
              stagePatch, summarizingPatch, failPatch, Patch.id]
          have htr : processLectureTrace env vp =
              [.update (stagePatch "extracting_audio"), .call .extractAudio,
               .update (stagePatch "transcribing"), .call .transcribe,
               .call .formatTranscript,
               .update (summarizingPatch transcript (env.render transcript)),
               .call .generateSummary] ++ [.update (failPatch eD)] := by
            simp [processLectureTrace, hA, hB, hC, hD]
          rw [hfin]
          exact ⟨rfl, ⟨eD, _, rfl, htr⟩, rfl, rfl, rfl, rfl,
            Or.inr ⟨transcript, rfl, rfl⟩⟩
        · rcases hE : env.generateQuizzes transcript with eE | qs
          · have hfin : applyEvents r0 (processLectureTrace env vp) =
                { r0 with
                  transcriptMd := some transcript
                  transcriptHtml := some (env.render transcript)
                  processingStage := "failed"
                  processingError := some eE } := by
              simp [processLectureTrace, hA, hB, hC, hD, hE, applyEvents,
                applyPatch, stagePatch, summarizingPatch, failPatch, Patch.id]
            have htr : processLectureTrace env vp =
                [.update (stagePatch "extracting_audio"), .call .extractAudio,
                 .update (stagePatch "transcribing"), .call .transcribe,
                 .call .formatTranscript,
                 .update (summarizingPatch transcript (env.render transcript)),
                 .call .generateSummary, .call .generateQuizzes] ++
                  [.update (failPatch eE)] := by
              simp [processLectureTrace, hA, hB, hC, hD, hE]
            rw [hfin]
            exact ⟨rfl, ⟨eE, _, rfl, htr⟩, rfl, rfl, rfl, rfl,
              Or.inr ⟨transcript, rfl, rfl⟩⟩
          · rcases hF : env.extractFrames vp with eF | sl
            · have hfin : applyEvents r0 (processLectureTrace env vp) =
                  { r0 with
                    transcriptMd := some transcript
                    transcriptHtml := some (env.render transcript)
                    processingStage := "failed"
                    processingError := some eF } := by
                simp [processLectureTrace, hA, hB, hC, hD, hE, hF, applyEvents,
                  applyPatch, stagePatch, summarizingPatch, failPatch, Patch.id]
              have htr : processLectureTrace env vp =
                  [.update (stagePatch "extracting_audio"), .call .extractAudio,
                   .update (stagePatch "transcribing"), .call .transcribe,
                   .call .formatTranscript,
                   .update (summarizingPatch transcript (env.render transcript)),
                   .call .generateSummary, .call .generateQuizzes,
                   .call .extractFrames] ++ [.update (failPatch eF)] := by
                simp [processLectureTrace, hA, hB, hC, hD, hE, hF]
              rw [hfin]
              exact ⟨rfl, ⟨eF, _, rfl, htr⟩, rfl, rfl, rfl, rfl,
                Or.inr ⟨transcript, rfl, rfl⟩⟩
            · exact absurd (by
                simp [processLectureTrace, hA, hB, hC, hD, hE, hF, stagesOf,
                  stagePatch, summarizingPatch, completePatch, Patch.id]) h

/-- C5: when any stage errors, the orchestrator (a total function here —
nothing propagates to its invoker) persists the error message with
stage=`failed` as the final event of the run, performs no further stage
work after it, never populates artifacts of later stages (summary markup,
quizzes, slides stay as they were), and keeps whatever was persisted
before the failing stage (the transcript is either untouched or fully
persisted with its markup).  The YouTube wrapper records a download
failure the same way. -/
theorem c5_failure_isolation :
    (∀ (env : Env) (vp : String) (r0 : LectureRec),
        "complete" ∉ stagesOf (processLectureTrace env vp) →
        (applyEvents r0 (processLectureTrace env vp)).processingStage = "failed" ∧
        (∃ m pre,
          (applyEvents r0 (processLectureTrace env vp)).processingError = some m ∧
          processLectureTrace env vp = pre ++ [.update (failPatch m)]) ∧
        (applyEvents r0 (processLectureTrace env vp)).summaryMd = r0.summaryMd ∧
        (applyEvents r0 (processLectureTrace env vp)).summaryHtml = r0.summaryHtml ∧
        (applyEvents r0 (processLectureTrace env vp)).quizzes = r0.quizzes ∧
        (applyEvents r0 (processLectureTrace env vp)).slides = r0.slides ∧
        ((applyEvents r0 (processLectureTrace env vp)).transcriptMd = r0.transcriptMd ∧
          (applyEvents r0 (processLectureTrace env vp)).transcriptHtml =
            r0.transcriptHtml ∨
         ∃ t, (applyEvents r0 (processLectureTrace env vp)).transcriptMd = some t ∧
           (applyEvents r0 (processLectureTrace env vp)).transcriptHtml =
             some (env.render t))) ∧
    (∀ (env : Env) (url : String) (r0 : LectureRec),
        "complete" ∉ stagesOf (processYouTubeTrace env url) →
        (applyEvents r0 (processYouTubeTrace env url)).processingStage = "failed" ∧
        (∃ m pre,
          (applyEvents r0 (processYouTubeTrace env url)).processingError = some m ∧
          processYouTubeTrace env url = pre ++ [.update (failPatch m)]) ∧
        (applyEvents r0 (processYouTubeTrace env url)).summaryMd = r0.summaryMd ∧
        (applyEvents r0 (processYouTubeTrace env url)).quizzes = r0.quizzes ∧
        (applyEvents r0 (processYouTubeTrace env url)).slides = r0.slides) := by
  constructor
  · intro env vp r0 h
    exact processLectureTrace_failed env vp r0 h
  · intro env url r0 h
    rcases hDl : env.downloadVideo url with eDl | vp
    · have hfin : applyEvents r0 (processYouTubeTrace env url) =
          { r0 with processingStage := "failed", processingError := some eDl } := by
        simp [processYouTubeTrace, hDl, applyEvents, applyPatch, stagePatch,
          failPatch, Patch.id]
      have htr : processYouTubeTrace env url =
          [.update (stagePatch "downloading"), .call .downloadVideo] ++
            [.update (failPatch eDl)] := by
        simp [processYouTubeTrace, hDl]
      rw [hfin]
      exact ⟨rfl, ⟨eDl, _, rfl, htr⟩, rfl, rfl, rfl⟩
    · have hsplit : processYouTubeTrace env url =
          [.update (stagePatch "downloading"), .call .downloadVideo,
           .update (videoPathPatch vp)] ++ processLectureTrace env vp := by
        simp [processYouTubeTrace, hDl]
      have h2 : "complete" ∉ stagesOf (processLectureTrace env vp) := by
        intro hc
        apply h
        rw [hsplit]
        simp only [stagesOf, List.filterMap_append] at hc ⊢
        exact List.mem_append.mpr (Or.inr hc)
      have hpre : applyEvents r0 (processYouTubeTrace env url) =
          applyEvents (applyEvents r0
            [.update (stagePatch "downloading"), .call .downloadVideo,
             .update (videoPathPatch vp)]) (processLectureTrace env vp) := by
        rw [hsplit, applyEvents_append]
      obtain ⟨hstage, ⟨m, pre, herr, htrace⟩, hsm, _, hq, hsl, _⟩ :=
        processLectureTrace_failed env vp
          (applyEvents r0
            [.update (stagePatch "downloading"), .call .downloadVideo,
             .update (videoPathPatch vp)]) h2
      have hmid : (applyEvents r0
          [.update (stagePatch "downloading"), .call .downloadVideo,
           .update (videoPathPatch vp)]).summaryMd = r0.summaryMd ∧
          (applyEvents r0
            [.update (stagePatch "downloading"), .call .downloadVideo,
             .update (videoPathPatch vp)]).quizzes = r0.quizzes ∧
          (applyEvents r0
            [.update (stagePatch "downloading"), .call .downloadVideo,
             .update (videoPathPatch vp)]).slides = r0.slides := by
        simp [applyEvents, applyPatch, stagePatch, videoPathPatch, Patch.id]
      refine ⟨?_, ⟨m, [.update (stagePatch "downloading"), .call .downloadVideo,
        .update (videoPathPatch vp)] ++ pre, ?_, ?_⟩, ?_, ?_, ?_⟩
      · rw [hpre]; exact hstage
      · rw [hpre]; exact herr
      · rw [hsplit, htrace, List.append_assoc]
      · rw [hpre, hsm]; exact hmid.1
      · rw [hpre, hq]; exact hmid.2.1
      · rw [hpre, hsl]; exact hmid.2.2

/-- Witness for C5: a summary-stage failure in a file run and a download
failure in a YouTube run both leave a `failed` record. -/
theorem c5_witness :
    "complete" ∉ stagesOf (processLectureTrace envFailSummary "uploads/v.mp4") ∧
    (applyEvents (freshFileRec "T" "uploads/v.mp4")
      (processLectureTrace envFailSummary "uploads/v.mp4")).processingStage =
        "failed" ∧
    "complete" ∉ stagesOf (processYouTubeTrace envFailDownload "https://y.tb/x") ∧
    (applyEvents (freshYoutubeRec "T" "https://y.tb/x")
      (processYouTubeTrace envFailDownload "https://y.tb/x")).processingStage =
        "failed" := by
  refine ⟨by decide, ?_, by decide, ?_⟩
  · exact (c5_failure_isolation.1 envFailSummary "uploads/v.mp4"
      (freshFileRec "T" "uploads/v.mp4") (by decide)).1
  · exact (c5_failure_isolation.2 envFailDownload "https://y.tb/x"
      (freshYoutubeRec "T" "https://y.tb/x") (by decide)).1

/-- Invariant preservation along a file-pipeline run: starting from any
record with no error and a non-`failed` enum stage, every record the store
passes through has an enum stage, and a non-null error exactly when the
stage is `failed`. -/
theorem processLectureTrace_invariant (env : Env) (vp : String) (r0 : LectureRec)
    (h0s : r0.processingStage ∈ stageEnum)
    (h0e : r0.processingError = none)
    (h0f : r0.processingStage ≠ "failed")
    (r : LectureRec)
    (hr : r ∈ recsAlong r0 (processLectureTrace env vp)) :
    r.processingStage ∈ stageEnum ∧
      (r.processingError ≠ none ↔ r.processingStage = "failed") := by
  rcases hA : env.extractAudio vp with eA | audioPath
  · simp only [processLectureTrace, hA, List.cons_append, List.nil_append,
      recsAlong, List.scanl] at hr
    fin_cases hr <;>
      simp_all [stageEnum, applyPatch, stagePatch, failPatch, Patch.id]
  · rcases hB : env.transcribe audioPath with eB | raw
    · simp only [processLectureTrace, hA, hB, List.cons_append, List.nil_append,
        recsAlong, List.scanl] at hr
      fin_cases hr <;>
        simp_all [stageEnum, applyPatch, stagePatch, failPatch, Patch.id]
    · rcases hC : env.formatTranscript raw with eC | transcript
      · simp only [processLectureTrace, hA, hB, hC, List.cons_append,
          List.nil_append, recsAlong, List.scanl] at hr
        fin_cases hr <;>
          simp_all [stageEnum, applyPatch, stagePatch, failPatch, Patch.id]
      · rcases hD : env.generateSummary transcript with eD | summary
        · simp only [processLectureTrace, hA, hB, hC, hD, List.cons_append,
            List.nil_append, recsAlong, List.scanl] at hr
          fin_cases hr <;>
            simp_all [stageEnum, applyPatch, stagePatch, summarizingPatch,
              failPatch, Patch.id]
        · rcases hE : env.generateQuizzes transcript with eE | qs
          · simp only [processLectureTrace, hA, hB, hC, hD, hE, List.cons_append,
              List.nil_append, recsAlong, List.scanl] at hr
            fin_cases hr <;>
              simp_all [stageEnum, applyPatch, stagePatch, summarizingPatch,
                failPatch, Patch.id]
          · rcases hF : env.extractFrames vp with eF | sl
            · simp only [processLectureTrace, hA, hB, hC, hD, hE, hF,
                List.cons_append, List.nil_append, recsAlong, List.scanl] at hr
              fin_cases hr <;>
                simp_all [stageEnum, applyPatch, stagePatch, summarizingPatch,
                  failPatch, Patch.id]
            · simp only [processLectureTrace, hA, hB, hC, hD, hE, hF,
                List.cons_append, List.nil_append, recsAlong, List.scanl] at hr
              fin_cases hr <;>
                simp_all [stageEnum, applyPatch, stagePatch, summarizingPatch,
                  completePatch, Patch.id]

/-- C6: every record reachable from creation through the orchestrator's
updates — for file and YouTube runs alike — has a `processingStage` in the
defined enum and a non-null `processingError` exactly when the stage is
`failed`; in particular the final `complete` update explicitly writes
`processingError: null`. -/
theorem c6_stage_error_invariant :
    (∀ (env : Env) (vp title : String) (r : LectureRec),
        r ∈ recsAlong (freshFileRec title vp) (processLectureTrace env vp) →
        r.processingStage ∈ stageEnum ∧
          (r.processingError ≠ none ↔ r.processingStage = "failed")) ∧
    (∀ (env : Env) (url title : String) (r : LectureRec),
        r ∈ recsAlong (freshYoutubeRec title url) (processYouTubeTrace env url) →
        r.processingStage ∈ stageEnum ∧
          (r.processingError ≠ none ↔ r.processingStage = "failed")) ∧
    (∀ su sh qs sl, (completePatch su sh qs sl).processingError = some none) := by
  refine ⟨?_, ?_, fun su sh qs sl => rfl⟩
  · intro env vp title r hr
    exact processLectureTrace_invariant env vp (freshFileRec title vp)
      (by simp [freshFileRec, stageEnum]) rfl (by simp [freshFileRec]) r hr
  · intro env url title r hr
    rcases hDl : env.downloadVideo url with eDl | vp
    · simp only [processYouTubeTrace, hDl, List.cons_append, List.nil_append,
        recsAlong, List.scanl] at hr
      fin_cases hr <;>
        simp_all [stageEnum, freshYoutubeRec, freshFileRec, applyPatch,
          stagePatch, failPatch, Patch.id]
    · have hsplit : processYouTubeTrace env url =
          .update (stagePatch "downloading") :: .call .downloadVideo ::
            .update (videoPathPatch vp) :: processLectureTrace env vp := by
        simp [processYouTubeTrace, hDl]
      rw [hsplit, recsAlong_cons, recsAlong_cons, recsAlong_cons] at hr
      dsimp only at hr
      simp only [List.mem_cons] at hr
      rcases hr with rfl | rfl | rfl | hr
      · simp [stageEnum, freshYoutubeRec, freshFileRec]
      · simp [stageEnum, freshYoutubeRec, freshFileRec, applyPatch, stagePatch,
          Patch.id]
      · simp [stageEnum, freshYoutubeRec, freshFileRec, applyPatch, stagePatch,
          videoPathPatch, Patch.id]
      · refine processLectureTrace_invariant env vp _ ?_ ?_ ?_ r hr
        · simp [freshYoutubeRec, freshFileRec, applyPatch, stagePatch,
            videoPathPatch, Patch.id, stageEnum]
        · simp [freshYoutubeRec, freshFileRec, applyPatch, stagePatch,
            videoPathPatch, Patch.id]
        · simp [freshYoutubeRec, freshFileRec, applyPatch, stagePatch,
            videoPathPatch, Patch.id]

/-- Witness for C6 at the freshly created record of a file run in the
all-success environment. -/
theorem c6_witness :
    (freshFileRec "T" "uploads/v.mp4").processingStage ∈ stageEnum ∧
      ((freshFileRec "T" "uploads/v.mp4").processingError ≠ none ↔
        (freshFileRec "T" "uploads/v.mp4").processingStage = "failed") :=
  c6_stage_error_invariant.1 envAllOk "uploads/v.mp4" "T" _
    (List.mem_cons_self _ _)

end StudyTree
